import Mathlib

/-!
Verification development for the ii-agent reviewer turn loop
(`src/ii_agent/agents/reviewer.py`), the Gemini XML LLM client retry
policy (`src/ii_agent/llm/gemini_xml.py`), and the event-queue consumer
(`ReviewerAgent._process_messages`).

The Python code is shallowly embedded: pure fragments become Lean
functions, the stateful turn loop becomes a fueled interpreter over an
explicit trace, and external collaborators (the LLM provider, tool
implementations, `json.loads`, the context manager and the arrival times
of `cancel()` requests) are parameters of an environment record, so that
every behaviour of the real system corresponds to one instantiation.

`MessageHistory`, `EventType` and `ToolImplOutput` live in modules that
are not part of the provided sources; those few operations are modelled
from the specification (each such definition is marked
`Modelled from the spec:`). Everything else is translated directly from
the Python source.
-/

/-- Content block of a conversation turn (spec section 3; the reviewer loop
only ever creates these four variants). Tool inputs/outputs are kept as
opaque strings. -/
inductive ContentBlock
  | textPrompt (text : String)
  | textResult (text : String)
  | toolCall (tool_call_id : String) (tool_name : String) (tool_input : String)
  | toolResult (tool_call_id : String) (tool_name : String) (output : String)
deriving DecidableEq

/-- One conversation turn: a list of content blocks. Roles are positional
(even index = user, odd index = assistant), as in the spec data model. -/
abbrev Turn := List ContentBlock

/-- Blocks an LLM client may return (`AssistantContentBlock` in
`ii_agent/llm/base.py`): model text or a tool call. -/
inductive AssistantBlock
  | textResult (text : String)
  | toolCall (tool_call_id : String) (tool_name : String) (tool_input : String)
deriving DecidableEq

/-- Embed an assistant block into a generic content block. -/
def AssistantBlock.toContent : AssistantBlock → ContentBlock
  | .textResult t => ContentBlock.textResult t
  | .toolCall i n inp => ContentBlock.toolCall i n inp

/-- `ToolCallParameters` from `ii_agent/llm/base.py`: id, name and input of
a model-requested tool invocation. -/
structure ToolCallParameters where
  tool_call_id : String
  tool_name : String
  tool_input : String
deriving DecidableEq

/-- Modelled from the spec: `ToolImplOutput` (`ii_agent/tools/base.py` is
not under src); the reviewer constructs it with exactly these two fields
(`tool_output`, `tool_result_message`). -/
structure ToolImplOutput where
  tool_output : String
  tool_result_message : String
deriving DecidableEq

/-- Project the tool-call blocks out of a content block. -/
def toolCallOf : ContentBlock → Option ToolCallParameters
  | ContentBlock.toolCall i n inp => some (ToolCallParameters.mk i n inp)
  | _ => none

/-- Project the model-text blocks out of a content block. -/
def textOf : ContentBlock → Option String
  | ContentBlock.textResult t => some t
  | _ => none

/-- Modelled from the spec: `MessageHistory.get_pending_tool_calls` scans
the last turn only for ToolCall blocks lacking a ToolResult in the
following turn (there is none after the last turn), in emission order
(spec section 4.1; `ii_agent/llm/message_history.py` is not under src). -/
def get_pending_tool_calls (h : List Turn) : List ToolCallParameters :=
  match h.getLast? with
  | some t => List.filterMap toolCallOf t
  | none => []

/-- Modelled from the spec: `MessageHistory.get_last_assistant_text_response`
returns the last model-text block of the most recent turn ("query last
assistant text", spec section 3). The reviewer loop only invokes it
immediately after `add_assistant_turn`, where the last turn is the freshly
appended assistant turn. -/
def get_last_assistant_text_response (h : List Turn) : Option String :=
  match h.getLast? with
  | some t => (List.filterMap textOf t).getLast?
  | none => none

/-- Modelled from the spec: `MessageHistory.is_next_turn_user` is the
resume-safety query, true exactly when the history currently ends on a
user turn (turns alternate starting with user, so the last index is even
iff the length is odd). -/
def is_next_turn_user (h : List Turn) : Bool := h.length % 2 == 1

/-- Python `str.find` helper: first index `≥ start` at which `pat` occurs
in the scanned suffix; the scan carries the absolute index along. -/
def findIdxFrom (pat : List Char) : List Char → Nat → Option Nat
  | [], i => if List.isPrefixOf pat [] then some i else none
  | c :: rest, i =>
    if List.isPrefixOf pat (c :: rest) then some i
    else findIdxFrom pat rest (i + 1)

/-- Python `s.find(pat, start)`: index of the first occurrence at or after
`start`, `-1` when absent. -/
def pyFindFrom (s pat : List Char) (start : Nat) : Int :=
  match findIdxFrom pat (s.drop start) start with
  | some i => (i : Int)
  | none => -1

/-- Python slice `s[a:b]` for a nonnegative start and a possibly negative
end index (the reviewer only ever produces `b = -1` when `str.find`
fails). -/
def pySlice (s : List Char) (a : Nat) (b : Int) : List Char :=
  let bN : Nat := if b < 0 then s.length - (-b).toNat else b.toNat
  (s.take bN).drop a

/-- Python `str.strip()`: drop whitespace from both ends. -/
def pyStrip (s : List Char) : List Char :=
  ((s.dropWhile Char.isWhitespace).reverse.dropWhile Char.isWhitespace).reverse

/-- The opening marker `"```json"` searched for at reviewer.py line 241. -/
def jsonMarker : List Char := "```json".data

/-- The code fence marker `"```"`. -/
def fenceMarker : List Char := "```".data

/-- JSON extraction of `ReviewerAgent.run_impl`, lines 237-255: when the
last assistant text is truthy and contains `"```json"` (and `"```"`), take
the text from just after the first `"```json"` up to the next `"```"`
(Python returns `-1` when absent, so the slice then drops the final
character), strip it, and validate it with `json.loads` — modelled by the
environment predicate `jsonValid`. `some s` is the successful return
value; `none` is every path that falls through to the reminder prompt. -/
def extractJson (jsonValid : String → Bool) (lastResponse : Option String) : Option String :=
  match lastResponse with
  | none => none
  | some s =>
    if s = "" then none
    else
      let cs := s.data
      match findIdxFrom jsonMarker cs 0 with
      | none => none
      | some j0 =>
        match findIdxFrom fenceMarker cs 0 with
        | none => none
        | some _ =>
          let jstart := j0 + 7
          let jend : Int := pyFindFrom cs fenceMarker jstart
          let jstr := String.mk (pyStrip (pySlice cs jstart jend))
          if jsonValid jstr then some jstr else none

/-- Adjacent-duplicate scan of `_validate_tool_parameters` (lines 135-137):
walk the sorted list and report the first name equal to its successor. -/
def hasAdjacentDup : List String → Option String
  | a :: b :: t => if a = b then some a else hasAdjacentDup (b :: t)
  | _ => none

/-- Python `sorted(tool_names)`: a stable comparison sort; on strings with
their total order the sorted output is unique, so insertion sort is
extensionally the same function. -/
def sortedToolNames (names : List String) : List String :=
  List.insertionSort (fun a b => a ≤ b) names

/-- `ReviewerAgent._validate_tool_parameters` (lines 130-138): sort the
registered tool names, raise `ValueError` on the first adjacent duplicate,
otherwise return the tool parameter list unchanged (here represented by
the name list). -/
def validateToolNames (names : List String) : Except String (List String) :=
  match hasAdjacentDup (sortedToolNames names) with
  | some n => Except.error ("Tool " ++ n ++ " is duplicated")
  | none => Except.ok names

/-- Environment of one reviewer run: everything external to the loop.
`gen k` is the provider response to the `k`-th generation call;
`cancelAtEntry k` / `cancelAtDispatch k` tell whether a `cancel()` request
has arrived by the corresponding flag check of iteration `k` (the flag is
reset at the start of `run_impl`, so only post-reset arrivals appear
here); `runTool` is the tool manager dispatch; `jsonValid` models
`json.loads` succeeding; `truncate` is the context manager view
(`apply_truncation_if_needed` followed by `set_message_list`). -/
structure ReviewerEnv where
  toolNames : List String
  gen : Nat → List AssistantBlock
  cancelAtEntry : Nat → Bool
  cancelAtDispatch : Nat → Bool
  runTool : ToolCallParameters → String
  jsonValid : String → Bool
  truncate : List Turn → List Turn

/-- Fallback substitution of line 224-225: an empty model response becomes
a single `TextResult "No response from model"`. -/
def normalizeResponse (resp : List AssistantBlock) : List AssistantBlock :=
  if resp.isEmpty then [AssistantBlock.textResult "No response from model"] else resp

/-- The assistant turn appended to history for a model response (line 228). -/
def respTurn (resp : List AssistantBlock) : Turn :=
  List.map AssistantBlock.toContent (normalizeResponse resp)

/-- Pending tool calls contributed by a model response: what
`get_pending_tool_calls` yields right after the assistant turn is
appended. -/
def pendingOf (resp : List AssistantBlock) : List ToolCallParameters :=
  List.filterMap toolCallOf (respTurn resp)

/-- Last assistant text contributed by a model response: what
`get_last_assistant_text_response` yields right after the assistant turn
is appended. -/
def lastTextOf (resp : List AssistantBlock) : Option String :=
  (List.filterMap textOf (respTurn resp)).getLast?

/-- Observable trace of a running reviewer loop: the canonical history,
the number of LLM generation calls made so far, and the tool calls
actually dispatched to the tool manager. -/
structure RunTrace where
  history : List Turn
  gens : Nat
  dispatched : List ToolCallParameters

/-- Outcome of `run_impl`: the returned `ToolImplOutput` or the message of
a raised exception, together with the final observable trace. -/
structure LoopLog where
  result : Except String ToolImplOutput
  gens : Nat
  dispatched : List ToolCallParameters
  history : List Turn

/-- One loop iteration either terminates the run or hands an updated trace
to the next iteration. -/
inductive StepRes
  | done (log : LoopLog)
  | next (tr : RunTrace)

/-- The corrective reminder user prompt of line 258. -/
def reminderText : String :=
  "Please provide your review in the exact JSON format specified in the instructions, including the ```json and ``` markers."

/-- The structured budget-exhaustion payload of line 306. -/
def budgetOutput : String :=
  "\x7b\"error\": \"Reviewer did not complete review within maximum turns\"\x7d"

/-- One iteration of the `while remaining_turns > 0` body of
`ReviewerAgent.run_impl` (lines 190-302): validate tool names (fatal on
duplicates), check the interrupted flag, build the truncated view and call
the LLM, append the assistant turn, then branch on the number of pending
tool calls exactly as the source does (JSON completion check / fatal on
more than one / cooperative-interrupt check and dispatch on exactly one).
The TOOL_CALL / TOOL_RESULT queue events carry no loop-visible state and
are omitted here; the consumer side is modelled separately below. -/
def reviewerStep (env : ReviewerEnv) (k : Nat) (tr : RunTrace) : StepRes :=
  match validateToolNames env.toolNames with
  | Except.error m => StepRes.done ⟨Except.error m, tr.gens, tr.dispatched, tr.history⟩
  | Except.ok _ =>
    if env.cancelAtEntry k then
      StepRes.done ⟨Except.ok ⟨"Reviewer interrupted", "Reviewer interrupted by user"⟩,
        tr.gens, tr.dispatched, tr.history⟩
    else
      let hist2 := env.truncate tr.history ++ [respTurn (env.gen k)]
      match get_pending_tool_calls hist2 with
      | [] =>
        match extractJson env.jsonValid (get_last_assistant_text_response hist2) with
        | some jstr =>
          StepRes.done ⟨Except.ok ⟨jstr, "Review completed successfully"⟩,
            tr.gens + 1, tr.dispatched, hist2⟩
        | none =>
          StepRes.next ⟨hist2 ++ [[ContentBlock.textPrompt reminderText]], tr.gens + 1, tr.dispatched⟩
      | [tc] =>
        if env.cancelAtDispatch k then
          StepRes.done ⟨Except.ok ⟨"Reviewer interrupted", "Reviewer interrupted during tool execution"⟩,
            tr.gens + 1, tr.dispatched,
            hist2 ++ [[ContentBlock.toolResult tc.tool_call_id tc.tool_name "Tool execution interrupted"]]⟩
        else
          let out := env.runTool tc
          let hist3 := hist2 ++ [[ContentBlock.toolResult tc.tool_call_id tc.tool_name out]]
          if tc.tool_name == "return_control_to_user" then
            StepRes.done ⟨Except.ok ⟨out, "Reviewer completed with JSON response"⟩,
              tr.gens + 1, tr.dispatched ++ [tc], hist3⟩
          else
            StepRes.next ⟨hist3, tr.gens + 1, tr.dispatched ++ [tc]⟩
      | _ :: _ :: _ =>
        StepRes.done ⟨Except.error "Only one tool call per turn is supported",
          tr.gens + 1, tr.dispatched, hist2⟩

/-- The reviewer turn loop: `remaining_turns` is the fuel, decremented
once per iteration; when it reaches zero the structured budget-exhaustion
output of lines 305-308 is returned. -/
def reviewerLoop (env : ReviewerEnv) : Nat → Nat → RunTrace → LoopLog
  | 0, _, tr =>
    ⟨Except.ok ⟨budgetOutput, "Review incomplete - maximum turns reached"⟩,
      tr.gens, tr.dispatched, tr.history⟩
  | fuel + 1, k, tr =>
    match reviewerStep env k tr with
    | StepRes.done log => log
    | StepRes.next tr2 => reviewerLoop env fuel (k + 1) tr2

/-- Tail of the review instruction template of lines 167-184 (the five
sentence-long JSON field descriptions are abridged to ellipses: prompt
content is declared out of scope by the spec and no claim depends on it). -/
def reviewInstructionTail : String :=
  "\nYour task is to:\n1. Analyze the workspace directory to understand how the agent tried to solve the task, only check inside this workspace directory, do not check outside of it\n2. Check todo file if it exists, if it does, then you can read file to understand the pipeline of the general agent used to solve the task\n3. Deep dive into other files in the workspace directory to understand the general agent capabilities and how it tried to solve the task\n4. Analyze and provide feedback to the general agent on how it can improve its capabilities\n5. Generate a structured JSON response\n\nYou must respond precisely in the following format including the JSON start and end markers:\n```json\n\x7b\n    \"summarization\": \"...\",\n    \"potential_improvements\": \"...\",\n    \"improvement_proposal\": \"...\",\n    \"implementation_suggestion\": \"...\",\n    \"problem_description\": \"...\"\n\x7d\n```"

/-- The review instruction user prompt built at lines 156-184. -/
def reviewInstruction (task workspace_dir : String) : String :=
  "You are a reviewer agent tasked with evaluating the work done by an general agent. \nYou have access to all the same tools that the general agent has.\n\nHere is the task that the general agent is trying to solve:\n"
    ++ task
    ++ "\n\nHere is the workspace directory of the general agent execution:\n"
    ++ workspace_dir
    ++ "\n\n"
    ++ reviewInstructionTail

/-- `ReviewerAgent.run_impl` (lines 144-308): append the instruction user
turn, then — line 187 — unconditionally overwrite the interrupted flag
with `False` (so `initInterrupted`, which absorbs every `cancel()` issued
before this point, is discarded), and run the turn loop with
`remaining_turns = max_turns`. -/
def run_impl (env : ReviewerEnv) (task workspace_dir : String)
    (initHistory : List Turn) (initInterrupted : Bool) (maxTurns : Nat) : LoopLog :=
  let hist0 := initHistory ++ [[ContentBlock.textPrompt (reviewInstruction task workspace_dir)]]
  let _discarded := initInterrupted
  reviewerLoop env maxTurns 0 ⟨hist0, 0, []⟩

/-- Per-instance agent state persisting across `run` invocations: the
history and the interrupted flag. -/
structure AgentState where
  history : List Turn
  interrupted : Bool

/-- `ReviewerAgent.cancel` (lines 328-331): set the interrupted flag;
nothing else. -/
def cancel (st : AgentState) : AgentState := { st with interrupted := true }

/-- The message of the failed resume assertion at line 351. -/
def assertionFailureMessage : String :=
  "AssertionError: assert self.history.is_next_turn_user()"

/-- `ReviewerAgent.run_agent` (lines 333-360): reset the tool manager (no
loop-visible state), then either resume — asserting the history currently
ends on a user turn — keeping history and interruption state, or start
fresh with cleared history and reset flag; finally invoke the run
(`BaseAgent.run` is not under src; per its call shape it forwards the tool
input and the instance history to `run_impl`). -/
def run_agent (env : ReviewerEnv) (task workspace_dir : String)
    (st : AgentState) (resume : Bool) (maxTurns : Nat) : Except String LoopLog :=
  if resume then
    if is_next_turn_user st.history then
      Except.ok (run_impl env task workspace_dir st.history st.interrupted maxTurns)
    else
      Except.error assertionFailureMessage
  else
    Except.ok (run_impl env task workspace_dir [] false maxTurns)

/-- The two interrupted terminal payloads of `run_impl` (lines 200-203 and
291-294), distinguished from every other outcome by their
`tool_result_message`. -/
def isInterruptedLog (log : LoopLog) : Prop :=
  log.result = Except.ok ⟨"Reviewer interrupted", "Reviewer interrupted by user"⟩ ∨
    log.result = Except.ok ⟨"Reviewer interrupted", "Reviewer interrupted during tool execution"⟩

/-- A generation whose iteration does not terminate the loop: either no
tool call and no extractable JSON (the reminder path), or exactly one tool
call that is not the designated termination tool. -/
def nonTerminalGen (env : ReviewerEnv) (k : Nat) : Prop :=
  (pendingOf (env.gen k) = [] ∧ extractJson env.jsonValid (lastTextOf (env.gen k)) = none) ∨
    (∃ tc, pendingOf (env.gen k) = [tc] ∧ tc.tool_name ≠ "return_control_to_user")

/-- Follows the claim wording of C3 (spec-side definition, deliberately
not taken from the code): the text contains a ```json fenced block whose
contents parse as valid JSON. -/
def containsValidJsonFence (jsonValid : String → Bool) (s : String) : Prop :=
  ∃ pre mid post : String,
    s = pre ++ "```json" ++ mid ++ "```" ++ post ∧ jsonValid mid = true

/-- Stand-in for Python `json.loads` used by the C3 counterexample: accept
exactly the strings whose stripped form is the empty object. It agrees
with `json.loads` on every string the counterexample evaluates
(`json.loads` fails on `"bad"` and succeeds on a whitespace-padded
`\x7b\x7d`). -/
def jsonLoadsCex (s : String) : Bool :=
  String.mk (pyStrip s.data) == "\x7b\x7d"

/-- Counterexample text for C3: the first ```json fence holds invalid
JSON, a later one holds valid JSON. The code only ever inspects the first
fence. -/
def sCex : String := "```json\nbad\n``` ```json\n\x7b\x7d\n```"

/-- A concrete environment used by witnesses: one tool, a silent model,
no cancellation, identity truncation, a `json.loads` that always fails. -/
def sampleEnv : ReviewerEnv where
  toolNames := ["bash"]
  gen := fun _ => []
  cancelAtEntry := fun _ => false
  cancelAtDispatch := fun _ => false
  runTool := fun _ => "ok"
  jsonValid := fun _ => false
  truncate := fun h => h

/-- The C3 counterexample environment: the model answers with `sCex` and
no tool call; `json.loads` is `jsonLoadsCex`. -/
def cexEnv : ReviewerEnv :=
  { sampleEnv with gen := fun _ => [AssistantBlock.textResult sCex], jsonValid := jsonLoadsCex }

/-- An environment whose model always requests one `bash` tool call. -/
def toolCallEnv : ReviewerEnv :=
  { sampleEnv with gen := fun _ => [AssistantBlock.toolCall "id1" "bash" "ls"] }

/-- Provider-call failures of `GeminiXMLClient.generate`: a
`google.genai.errors.APIError` carrying an HTTP code, or any other
exception (which the `except errors.APIError` clause does not catch). -/
inductive GenErr
  | api (code : Nat) (msg : String)
  | other (msg : String)
deriving DecidableEq

/-- The transient-error test of line 135: `e.code in [503, 429]` (only
`APIError`s ever reach it). -/
def isTransient : GenErr → Bool
  | GenErr.api c _ => c == 503 || c == 429
  | GenErr.other _ => false

/-- Observable outcome of the retry loop of `generate` (lines 124-151):
a provider response together with the number of attempts made and sleeps
performed, an exception propagated to the caller, or the fall-through in
which the loop body never ran and the later read of `response` fails on an
unbound local (`attempts` records the provider requests actually made). -/
inductive RetryOutcome
  | ok (resp : String) (attempts : Nat) (sleeps : Nat)
  | raised (e : GenErr) (attempts : Nat) (sleeps : Nat)
  | unboundLocalError (attempts : Nat)
deriving DecidableEq

/-- Attempts recorded in a retry outcome. -/
def attemptsOf : RetryOutcome → Nat
  | RetryOutcome.ok _ a _ => a
  | RetryOutcome.raised _ a _ => a
  | RetryOutcome.unboundLocalError a => a

/-- The `for retry in range(self.max_retries)` loop of lines 124-145:
`fuel` is the number of remaining range elements, `k` the current value of
`retry`, `s` the sleeps performed so far. A successful call breaks; a
transient `APIError` (503/429) re-raises on the last allowed attempt and
otherwise sleeps with jitter and retries; every other error propagates at
once. Exhausting the range without a break leaves `response` unbound. -/
def geminiRetryGo (attempt : Nat → Except GenErr String) (maxRetries : Nat) :
    Nat → Nat → Nat → RetryOutcome
  | 0, k, _ => RetryOutcome.unboundLocalError k
  | fuel + 1, k, s =>
    match attempt k with
    | Except.ok r => RetryOutcome.ok r (k + 1) s
    | Except.error e =>
      if isTransient e then
        if k == maxRetries - 1 then RetryOutcome.raised e (k + 1) s
        else geminiRetryGo attempt maxRetries fuel (k + 1) (s + 1)
      else RetryOutcome.raised e (k + 1) s

/-- The retry phase of `GeminiXMLClient.generate`: run the range loop from
`retry = 0` with the full range as fuel. `attempt k` is the provider
behaviour of the `k`-th `generate_content` call. -/
def geminiGenerate (attempt : Nat → Except GenErr String) (maxRetries : Nat) : RetryOutcome :=
  geminiRetryGo attempt maxRetries maxRetries 0 0

/-- The configuration state stored by `GeminiXMLClient.__init__`
(lines 29-44; endpoint and credential setup are external I/O with no
bearing on the retry loop). -/
structure GeminiXMLClientState where
  model_name : String
  max_retries : Nat
deriving DecidableEq

/-- `GeminiXMLClient.__init__` stores `max_retries` without any
validation; `0` is accepted. -/
def geminiInit (model_name : String) (max_retries : Nat) : GeminiXMLClientState :=
  ⟨model_name, max_retries⟩

/-- A transient-error hypothesis about the `i`-th provider attempt. -/
def transientAt (attempt : Nat → Except GenErr String) (i : Nat) : Prop :=
  ∃ e, attempt i = Except.error e ∧ isTransient e = true

/-- Modelled from the spec: the event types of `ii_agent/core/event.py`
(not under src) named by the streaming-bridge contract:
USER_MESSAGE, TOOL_CALL, TOOL_RESULT, AGENT_RESPONSE. -/
inductive EventType
  | userMessage
  | toolCallEvent
  | toolResultEvent
  | agentResponse
deriving DecidableEq

/-- A queued realtime event; the payload is opaque to the consumer. -/
structure RealtimeEvent where
  type : EventType
  content : String
deriving DecidableEq

/-- Consumer-side state of `_process_messages`: the append-only database
log, the events actually delivered over the websocket, and whether a
websocket is still attached (`self.websocket is not None`). -/
structure ConsumerState where
  db : List RealtimeEvent
  sent : List RealtimeEvent
  wsAttached : Bool
deriving DecidableEq

/-- One iteration of the `while True` body of
`ReviewerAgent._process_messages` (lines 91-118) on a dequeued event:
persist it when a session id is present; then, when the event is not a
USER_MESSAGE and a websocket is attached, attempt the send — a raising
send is caught, logged and detaches the websocket (`self.websocket =
None`); processing always continues. `sendFails idx` says whether the
send attempted while handling the `idx`-th event raises. -/
def processEvent (sessionPresent : Bool) (sendFails : Nat → Bool) (idx : Nat)
    (st : ConsumerState) (e : RealtimeEvent) : ConsumerState :=
  let st1 := if sessionPresent then ⟨st.db ++ [e], st.sent, st.wsAttached⟩ else st
  if (e.type != EventType.userMessage) && st1.wsAttached then
    if sendFails idx then ⟨st1.db, st1.sent, false⟩
    else ⟨st1.db, st1.sent ++ [e], st1.wsAttached⟩
  else st1

/-- The consumer task drained over a finite queue prefix, in FIFO order. -/
def processMessages (sessionPresent : Bool) (sendFails : Nat → Bool) :
    List RealtimeEvent → Nat → ConsumerState → ConsumerState
  | [], _, st => st
  | e :: rest, idx, st =>
    processMessages sessionPresent sendFails rest (idx + 1)
      (processEvent sessionPresent sendFails idx st e)

/-- The last element of a list ending in an appended singleton. -/
theorem getLastSingletonAppend {α : Type} (l : List α) (a : α) : (l ++ [a]).getLast? = some a := by
  induction l with
  | nil => rfl
  | cons b t ih =>
    rw [List.cons_append, List.getLast?_cons, ih]
    cases t <;> simp

/-- Pending tool calls right after the assistant turn is appended come
from that turn alone. -/
theorem get_pending_append (h : List Turn) (r : List AssistantBlock) :
    get_pending_tool_calls (h ++ [respTurn r]) = pendingOf r := by
  rw [get_pending_tool_calls, getLastSingletonAppend, pendingOf]

/-- The last assistant text right after the assistant turn is appended
comes from that turn alone. -/
theorem get_last_text_append (h : List Turn) (r : List AssistantBlock) :
    get_last_assistant_text_response (h ++ [respTurn r]) = lastTextOf r := by
  rw [get_last_assistant_text_response, getLastSingletonAppend, lastTextOf]

/-- On a `≤`-sorted list, the adjacent-duplicate scan reports nothing
exactly when the list has no duplicates. -/
theorem hasAdjacentDup_none_iff : ∀ (l : List String), l.Sorted (fun a b => a ≤ b) →
    (hasAdjacentDup l = none ↔ l.Nodup) := by
  intro l
  induction l with
  | nil => intro _; simp [hasAdjacentDup]
  | cons a t ih =>
    intro hs
    cases t with
    | nil => simp [hasAdjacentDup]
    | cons b t2 =>
      rw [List.sorted_cons] at hs
      by_cases hab : a = b
      · subst hab
        simp [hasAdjacentDup]
      · have hstep : hasAdjacentDup (a :: b :: t2) = hasAdjacentDup (b :: t2) := by
          simp [hasAdjacentDup, hab]
        have hb : a < b := lt_of_le_of_ne (hs.1 b (List.mem_cons_self b t2)) hab
        have hnotmem : a ∉ b :: t2 := by
          intro hmem
          rcases List.mem_cons.mp hmem with h1 | h2
          · exact hab h1
          · have hbx : b ≤ a := (List.sorted_cons.mp hs.2).1 a h2
            exact absurd (lt_of_lt_of_le hb hbx) (lt_irrefl a)
        rw [hstep, ih hs.2]
        simp [List.nodup_cons, hnotmem]

/-- Validation succeeds, returning the names unchanged, exactly when the
names are duplicate-free. -/
theorem validate_ok_iff (names : List String) :
    validateToolNames names = Except.ok names ↔ names.Nodup := by
  have hsorted : (sortedToolNames names).Sorted (fun a b => a ≤ b) :=
    List.sorted_insertionSort _ names
  have hperm : (sortedToolNames names).Perm names := List.perm_insertionSort _ names
  have hiff := hasAdjacentDup_none_iff (sortedToolNames names) hsorted
  rw [hperm.nodup_iff] at hiff
  constructor
  · intro hok
    cases heq : hasAdjacentDup (sortedToolNames names) with
    | none => exact hiff.mp heq
    | some n => rw [validateToolNames, heq] at hok; exact absurd hok (by simp)
  · intro hnd
    rw [validateToolNames, hiff.mpr hnd]

/-- Validation fails exactly when some name is duplicated. -/
theorem validate_error_iff (names : List String) :
    (∃ m, validateToolNames names = Except.error m) ↔ ¬ names.Nodup := by
  constructor
  · rintro ⟨m, hm⟩ hnd
    rw [(validate_ok_iff names).mpr hnd] at hm
    exact absurd hm (by simp)
  · intro hnd
    cases heq : hasAdjacentDup (sortedToolNames names) with
    | none =>
      have hsorted : (sortedToolNames names).Sorted (fun a b => a ≤ b) :=
        List.sorted_insertionSort _ names
      exact absurd (((List.perm_insertionSort (fun a b => a ≤ b) names).nodup_iff).mp
        ((hasAdjacentDup_none_iff _ hsorted).mp heq)) hnd
    | some n => exact ⟨"Tool " ++ n ++ " is duplicated", by rw [validateToolNames, heq]⟩

/-- Loop-entry checkpoint: with valid tool names and a cancellation
observed at loop entry, the iteration terminates with the interrupted
payload before any LLM call (the generation count is untouched). -/
theorem step_entry_interrupt (env : ReviewerEnv) (k : Nat) (tr : RunTrace)
    (hn : env.toolNames.Nodup) (hce : env.cancelAtEntry k = true) :
    reviewerStep env k tr = StepRes.done
      ⟨Except.ok ⟨"Reviewer interrupted", "Reviewer interrupted by user"⟩,
        tr.gens, tr.dispatched, tr.history⟩ := by
  simp [reviewerStep, (validate_ok_iff env.toolNames).mpr hn, hce]

/-- Duplicate tool names make the iteration raise before anything else. -/
theorem step_dup_raises (env : ReviewerEnv) (k : Nat) (tr : RunTrace) (m : String)
    (hv : validateToolNames env.toolNames = Except.error m) :
    reviewerStep env k tr = StepRes.done ⟨Except.error m, tr.gens, tr.dispatched, tr.history⟩ := by
  simp [reviewerStep, hv]

/-- Zero pending tool calls and no extractable JSON: the iteration appends
the corrective reminder as a user turn and continues. -/
theorem step_reminder (env : ReviewerEnv) (k : Nat) (tr : RunTrace)
    (hn : env.toolNames.Nodup) (hce : env.cancelAtEntry k = false)
    (hp : pendingOf (env.gen k) = [])
    (hx : extractJson env.jsonValid (lastTextOf (env.gen k)) = none) :
    reviewerStep env k tr = StepRes.next
      ⟨(env.truncate tr.history ++ [respTurn (env.gen k)]) ++ [[ContentBlock.textPrompt reminderText]],
        tr.gens + 1, tr.dispatched⟩ := by
  simp [reviewerStep, (validate_ok_iff env.toolNames).mpr hn, hce,
    get_pending_append, hp, get_last_text_append, hx]

/-- Zero pending tool calls and an extractable JSON payload: the iteration
terminates successfully, returning the extracted string. -/
theorem step_json (env : ReviewerEnv) (k : Nat) (tr : RunTrace) (jstr : String)
    (hn : env.toolNames.Nodup) (hce : env.cancelAtEntry k = false)
    (hp : pendingOf (env.gen k) = [])
    (hx : extractJson env.jsonValid (lastTextOf (env.gen k)) = some jstr) :
    reviewerStep env k tr = StepRes.done
      ⟨Except.ok ⟨jstr, "Review completed successfully"⟩, tr.gens + 1, tr.dispatched,
        env.truncate tr.history ++ [respTurn (env.gen k)]⟩ := by
  simp [reviewerStep, (validate_ok_iff env.toolNames).mpr hn, hce,
    get_pending_append, hp, get_last_text_append, hx]

/-- Exactly one pending tool call with a cancellation observed at the
pre-dispatch checkpoint: a "Tool execution interrupted" ToolResult turn is
recorded and the run terminates interrupted; the tool is not dispatched. -/
theorem step_dispatch_interrupt (env : ReviewerEnv) (k : Nat) (tr : RunTrace)
    (tc : ToolCallParameters)
    (hn : env.toolNames.Nodup) (hce : env.cancelAtEntry k = false)
    (hp : pendingOf (env.gen k) = [tc]) (hcd : env.cancelAtDispatch k = true) :
    reviewerStep env k tr = StepRes.done
      ⟨Except.ok ⟨"Reviewer interrupted", "Reviewer interrupted during tool execution"⟩,
        tr.gens + 1, tr.dispatched,
        (env.truncate tr.history ++ [respTurn (env.gen k)])
          ++ [[ContentBlock.toolResult tc.tool_call_id tc.tool_name "Tool execution interrupted"]]⟩ := by
  simp [reviewerStep, (validate_ok_iff env.toolNames).mpr hn, hce,
    get_pending_append, hp, hcd]

/-- Exactly one pending call to a non-termination tool, no cancellation:
the tool is dispatched, its result appended, and the loop continues. -/
theorem step_tool_continue (env : ReviewerEnv) (k : Nat) (tr : RunTrace)
    (tc : ToolCallParameters)
    (hn : env.toolNames.Nodup) (hce : env.cancelAtEntry k = false)
    (hp : pendingOf (env.gen k) = [tc]) (hcd : env.cancelAtDispatch k = false)
    (hname : tc.tool_name ≠ "return_control_to_user") :
    reviewerStep env k tr = StepRes.next
      ⟨(env.truncate tr.history ++ [respTurn (env.gen k)])
          ++ [[ContentBlock.toolResult tc.tool_call_id tc.tool_name (env.runTool tc)]],
        tr.gens + 1, tr.dispatched ++ [tc]⟩ := by
  simp [reviewerStep, (validate_ok_iff env.toolNames).mpr hn, hce,
    get_pending_append, hp, hcd, hname]

/-- Exactly one pending call to the designated termination tool: the tool
runs and its output is returned as the final result. -/
theorem step_tool_return (env : ReviewerEnv) (k : Nat) (tr : RunTrace)
    (tc : ToolCallParameters)
    (hn : env.toolNames.Nodup) (hce : env.cancelAtEntry k = false)
    (hp : pendingOf (env.gen k) = [tc]) (hcd : env.cancelAtDispatch k = false)
    (hname : tc.tool_name = "return_control_to_user") :
    reviewerStep env k tr = StepRes.done
      ⟨Except.ok ⟨env.runTool tc, "Reviewer completed with JSON response"⟩,
        tr.gens + 1, tr.dispatched ++ [tc],
        (env.truncate tr.history ++ [respTurn (env.gen k)])
          ++ [[ContentBlock.toolResult tc.tool_call_id tc.tool_name (env.runTool tc)]]⟩ := by
  simp [reviewerStep, (validate_ok_iff env.toolNames).mpr hn, hce,
    get_pending_append, hp, hcd, hname]

/-- More than one pending tool call: the iteration raises the protocol
violation, leaving the dispatch log untouched and appending no ToolResult
turn. -/
theorem step_multi (env : ReviewerEnv) (k : Nat) (tr : RunTrace)
    (a b : ToolCallParameters) (rest : List ToolCallParameters)
    (hn : env.toolNames.Nodup) (hce : env.cancelAtEntry k = false)
    (hp : pendingOf (env.gen k) = a :: b :: rest) :
    reviewerStep env k tr = StepRes.done
      ⟨Except.error "Only one tool call per turn is supported",
        tr.gens + 1, tr.dispatched, env.truncate tr.history ++ [respTurn (env.gen k)]⟩ := by
  simp [reviewerStep, (validate_ok_iff env.toolNames).mpr hn, hce,
    get_pending_append, hp]

/-- A run whose iterations are all non-terminal burns exactly the given
fuel — one generation call per iteration — and ends in the structured
budget-exhaustion payload. -/
theorem loop_nonterminal (env : ReviewerEnv)
    (hn : env.toolNames.Nodup)
    (hc : ∀ j, env.cancelAtEntry j = false ∧ env.cancelAtDispatch j = false) :
    ∀ fuel k tr, (∀ j, j < fuel → nonTerminalGen env (k + j)) →
      (reviewerLoop env fuel k tr).result
          = Except.ok ⟨budgetOutput, "Review incomplete - maximum turns reached"⟩
        ∧ (reviewerLoop env fuel k tr).gens = tr.gens + fuel := by
  intro fuel
  induction fuel with
  | zero => intro k tr _; exact ⟨rfl, rfl⟩
  | succ n ih =>
    intro k tr hnt
    have h0 := hnt 0 (Nat.succ_pos n)
    rw [Nat.add_zero] at h0
    have hshift : ∀ j, j < n → nonTerminalGen env (k + 1 + j) := by
      intro j hj
      have := hnt (j + 1) (by omega)
      rwa [show k + (j + 1) = k + 1 + j from by omega] at this
    rcases h0 with ⟨hp, hx⟩ | ⟨tc, hp, hname⟩
    · have hstep := step_reminder env k tr hn (hc k).1 hp hx
      have heq : reviewerLoop env (n + 1) k tr = reviewerLoop env n (k + 1)
          ⟨(env.truncate tr.history ++ [respTurn (env.gen k)])
              ++ [[ContentBlock.textPrompt reminderText]], tr.gens + 1, tr.dispatched⟩ := by
        rw [reviewerLoop, hstep]
      rw [heq]
      have ih2 := ih (k + 1) ⟨(env.truncate tr.history ++ [respTurn (env.gen k)])
          ++ [[ContentBlock.textPrompt reminderText]], tr.gens + 1, tr.dispatched⟩ hshift
      refine ⟨ih2.1, ?_⟩
      rw [ih2.2]
      show tr.gens + 1 + n = tr.gens + (n + 1)
      omega
    · have hstep := step_tool_continue env k tr tc hn (hc k).1 hp (hc k).2 hname
      have heq : reviewerLoop env (n + 1) k tr = reviewerLoop env n (k + 1)
          ⟨(env.truncate tr.history ++ [respTurn (env.gen k)])
              ++ [[ContentBlock.toolResult tc.tool_call_id tc.tool_name (env.runTool tc)]],
            tr.gens + 1, tr.dispatched ++ [tc]⟩ := by
        rw [reviewerLoop, hstep]
      rw [heq]
      have ih2 := ih (k + 1) ⟨(env.truncate tr.history ++ [respTurn (env.gen k)])
          ++ [[ContentBlock.toolResult tc.tool_call_id tc.tool_name (env.runTool tc)]],
          tr.gens + 1, tr.dispatched ++ [tc]⟩ hshift
      refine ⟨ih2.1, ?_⟩
      rw [ih2.2]
      show tr.gens + 1 + n = tr.gens + (n + 1)
      omega

/-- Skipping a prefix of reminder-only iterations: the loop reaches the
later iteration with the same dispatch log and one generation per skipped
iteration. -/
theorem loop_skip_reminder (env : ReviewerEnv)
    (hn : env.toolNames.Nodup)
    (hc : ∀ j, env.cancelAtEntry j = false) :
    ∀ d fuel k hist gens disp,
      (∀ j, j < d → pendingOf (env.gen (k + j)) = [] ∧
        extractJson env.jsonValid (lastTextOf (env.gen (k + j))) = none) →
      ∃ h2, reviewerLoop env (fuel + d) k ⟨hist, gens, disp⟩
          = reviewerLoop env fuel (k + d) ⟨h2, gens + d, disp⟩ := by
  intro d
  induction d with
  | zero => intro fuel k hist gens disp _; exact ⟨hist, rfl⟩
  | succ n ih =>
    intro fuel k hist gens disp hrem
    have h0 := hrem 0 (Nat.succ_pos n)
    rw [Nat.add_zero] at h0
    have hstep := step_reminder env k ⟨hist, gens, disp⟩ hn (hc k) h0.1 h0.2
    have heq : reviewerLoop env (fuel + (n + 1)) k ⟨hist, gens, disp⟩
        = reviewerLoop env (fuel + n) (k + 1)
          ⟨(env.truncate hist ++ [respTurn (env.gen k)])
              ++ [[ContentBlock.textPrompt reminderText]], gens + 1, disp⟩ := by
      rw [show fuel + (n + 1) = (fuel + n) + 1 from by omega, reviewerLoop, hstep]
    obtain ⟨h2, hrec⟩ := ih fuel (k + 1)
      ((env.truncate hist ++ [respTurn (env.gen k)])
          ++ [[ContentBlock.textPrompt reminderText]]) (gens + 1) disp
      (by
        intro j hj
        have := hrem (j + 1) (by omega)
        rwa [show k + (j + 1) = k + 1 + j from by omega] at this)
    refine ⟨h2, ?_⟩
    rw [heq, hrec, show k + 1 + n = k + (n + 1) from by omega,
      show gens + 1 + n = gens + (n + 1) from by omega]

/-- With no cancellation signal at either checkpoint of iteration `k`, a
terminating iteration never terminates with an interrupted payload. -/
theorem validate_ok_names (names ns : List String)
    (h : validateToolNames names = Except.ok ns) : ns = names ∧ names.Nodup := by
  cases heq : hasAdjacentDup (sortedToolNames names) with
  | some n =>
    rw [validateToolNames, heq] at h
    exact absurd h (by simp)
  | none =>
    have hok : validateToolNames names = Except.ok names := by rw [validateToolNames, heq]
    rw [hok] at h
    have hns : names = ns := by injection h
    exact ⟨hns.symm, (validate_ok_iff names).mp hok⟩

theorem step_done_not_interrupted (env : ReviewerEnv) (k : Nat) (tr : RunTrace) (log : LoopLog)
    (hce : env.cancelAtEntry k = false) (hcd : env.cancelAtDispatch k = false)
    (hstep : reviewerStep env k tr = StepRes.done log) : ¬ isInterruptedLog log := by
  rcases hval : validateToolNames env.toolNames with m | ns
  · rw [step_dup_raises env k tr m hval] at hstep
    injection hstep with h
    subst h
    simp [isInterruptedLog]
  · obtain ⟨-, hn⟩ := validate_ok_names _ _ hval
    rcases hpend : pendingOf (env.gen k) with - | ⟨a, - | ⟨b, rest⟩⟩
    · rcases hex : extractJson env.jsonValid (lastTextOf (env.gen k)) with - | jstr
      · rw [step_reminder env k tr hn hce hpend hex] at hstep
        exact absurd hstep (by simp)
      · rw [step_json env k tr jstr hn hce hpend hex] at hstep
        injection hstep with h
        subst h
        simp [isInterruptedLog]
    · by_cases hname : a.tool_name = "return_control_to_user"
      · rw [step_tool_return env k tr a hn hce hpend hcd hname] at hstep
        injection hstep with h
        subst h
        simp [isInterruptedLog]
      · rw [step_tool_continue env k tr a hn hce hpend hcd hname] at hstep
        exact absurd hstep (by simp)
    · rw [step_multi env k tr a b rest hn hce hpend] at hstep
      injection hstep with h
      subst h
      simp [isInterruptedLog]

/-- Without any cancellation signal the loop never produces an interrupted
outcome, whatever the model and tools do: only the two flag checkpoints
can yield it. -/
theorem loop_no_interrupt (env : ReviewerEnv)
    (hc : ∀ j, env.cancelAtEntry j = false ∧ env.cancelAtDispatch j = false) :
    ∀ fuel k tr, ¬ isInterruptedLog (reviewerLoop env fuel k tr) := by
  intro fuel
  induction fuel with
  | zero =>
    intro k tr
    simp [reviewerLoop, isInterruptedLog]
  | succ n ih =>
    intro k tr
    rw [reviewerLoop]
    cases hstep : reviewerStep env k tr with
    | done log => exact step_done_not_interrupted env k tr log (hc k).1 (hc k).2 hstep
    | next tr2 => exact ih (k + 1) tr2

/-- C1: For every configured max_turns, if no iteration of the turn loop
reaches a terminal return (no parseable JSON completion, no
return_control_to_user call, no interruption, no fatal error), run_impl
executes exactly max_turns loop iterations (one generation call each) and
then returns the structured failure whose tool_output is the JSON string
`\x7b"error": "Reviewer did not complete review within maximum turns"\x7d`
— it neither loops forever nor raises. -/
theorem reviewer_budget_exhaustion (env : ReviewerEnv) (task workspace_dir : String)
    (h0 : List Turn) (i0 : Bool) (maxTurns : Nat)
    (hn : env.toolNames.Nodup)
    (hc : ∀ j, env.cancelAtEntry j = false ∧ env.cancelAtDispatch j = false)
    (hnt : ∀ k, k < maxTurns → nonTerminalGen env k) :
    (run_impl env task workspace_dir h0 i0 maxTurns).result
        = Except.ok ⟨budgetOutput, "Review incomplete - maximum turns reached"⟩
      ∧ (run_impl env task workspace_dir h0 i0 maxTurns).gens = maxTurns := by
  have h := loop_nonterminal env hn hc maxTurns 0
    ⟨h0 ++ [[ContentBlock.textPrompt (reviewInstruction task workspace_dir)]], 0, []⟩
    (by intro j hj; rw [Nat.zero_add]; exact hnt j hj)
  have h2 := h.2
  rw [Nat.zero_add] at h2
  exact ⟨h.1, h2⟩

/-- Witness for C1: a one-tool agent whose model never answers usefully,
run with max_turns = 2, generates twice and reports budget exhaustion. -/
theorem reviewer_budget_exhaustion_witness :
    (run_impl sampleEnv "list files" "/ws" [] false 2).result
        = Except.ok ⟨budgetOutput, "Review incomplete - maximum turns reached"⟩
      ∧ (run_impl sampleEnv "list files" "/ws" [] false 2).gens = 2 :=
  reviewer_budget_exhaustion sampleEnv "list files" "/ws" [] false 2 (by decide)
    (fun _ => ⟨rfl, rfl⟩) (fun _ _ => Or.inl ⟨rfl, rfl⟩)

/-- C2: Whenever the assistant turn appended after a generation contains
more than one pending tool call, the turn loop raises the fatal
protocol-violation error immediately — no tool is dispatched, no
ToolResult turn is appended (the final history still ends on the assistant
turn), and the error is not silently recovered. -/
theorem reviewer_multiple_tool_calls_fatal (env : ReviewerEnv) (task workspace_dir : String)
    (h0 : List Turn) (i0 : Bool) (maxTurns k : Nat)
    (a b : ToolCallParameters) (rest : List ToolCallParameters)
    (hn : env.toolNames.Nodup)
    (hc : ∀ j, env.cancelAtEntry j = false ∧ env.cancelAtDispatch j = false)
    (hk : k < maxTurns)
    (hpre : ∀ j, j < k → pendingOf (env.gen j) = [] ∧
      extractJson env.jsonValid (lastTextOf (env.gen j)) = none)
    (hmulti : pendingOf (env.gen k) = a :: b :: rest) :
    (run_impl env task workspace_dir h0 i0 maxTurns).result
        = Except.error "Only one tool call per turn is supported"
      ∧ (run_impl env task workspace_dir h0 i0 maxTurns).dispatched = []
      ∧ ∃ h2, (run_impl env task workspace_dir h0 i0 maxTurns).history
          = h2 ++ [respTurn (env.gen k)] := by
  have hfuel : maxTurns = (maxTurns - k) + k := by omega
  obtain ⟨hh, hskip⟩ := loop_skip_reminder env hn (fun j => (hc j).1) k (maxTurns - k) 0
    (h0 ++ [[ContentBlock.textPrompt (reviewInstruction task workspace_dir)]]) 0 []
    (by intro j hj; rw [Nat.zero_add]; exact hpre j hj)
  rw [Nat.zero_add] at hskip
  obtain ⟨m, hm⟩ : ∃ m, maxTurns - k = m + 1 := ⟨maxTurns - k - 1, by omega⟩
  have hstep := step_multi env k ⟨hh, k, []⟩ a b rest hn (hc k).1 hmulti
  have hfin : reviewerLoop env (m + 1) k ⟨hh, k, []⟩
      = ⟨Except.error "Only one tool call per turn is supported", k + 1, [],
          env.truncate hh ++ [respTurn (env.gen k)]⟩ := by
    rw [reviewerLoop, hstep]
  have hrun : run_impl env task workspace_dir h0 i0 maxTurns
      = ⟨Except.error "Only one tool call per turn is supported", k + 1, [],
          env.truncate hh ++ [respTurn (env.gen k)]⟩ := by
    show reviewerLoop env maxTurns 0
      ⟨h0 ++ [[ContentBlock.textPrompt (reviewInstruction task workspace_dir)]], 0, []⟩ = _
    rw [hfuel, hskip, hm, hfin]
  exact ⟨by rw [hrun], by rw [hrun], ⟨env.truncate hh, by rw [hrun]⟩⟩

/-- Witness for C2: a model that immediately asks for two tool calls makes
the run raise with nothing dispatched. -/
theorem reviewer_multiple_tool_calls_fatal_witness :
    (run_impl { sampleEnv with gen := fun _ =>
        [AssistantBlock.toolCall "i1" "bash" "a", AssistantBlock.toolCall "i2" "bash" "b"] }
      "t" "w" [] false 3).result = Except.error "Only one tool call per turn is supported"
    ∧ (run_impl { sampleEnv with gen := fun _ =>
        [AssistantBlock.toolCall "i1" "bash" "a", AssistantBlock.toolCall "i2" "bash" "b"] }
      "t" "w" [] false 3).dispatched = []
    ∧ ∃ h2, (run_impl { sampleEnv with gen := fun _ =>
        [AssistantBlock.toolCall "i1" "bash" "a", AssistantBlock.toolCall "i2" "bash" "b"] }
      "t" "w" [] false 3).history
        = h2 ++ [respTurn (({ sampleEnv with gen := fun _ =>
            [AssistantBlock.toolCall "i1" "bash" "a", AssistantBlock.toolCall "i2" "bash" "b"] }
              : ReviewerEnv).gen 0)] :=
  reviewer_multiple_tool_calls_fatal _ "t" "w" [] false 3 0
    ⟨"i1", "bash", "a"⟩ ⟨"i2", "bash", "b"⟩ [] (by decide) (fun _ => ⟨rfl, rfl⟩)
    (by omega) (fun j hj => absurd hj (by omega)) (by decide)

/-- C3 (amended): whenever a generation yields an assistant turn with zero
pending tool calls, the loop terminates returning an extracted JSON string
if and only if the code's extraction succeeds on the last assistant text —
that is, the text after the first `"```json"` marker, taken up to the next
`"```"` marker (or, when no closing marker exists, to the end of the text
with the final character dropped) and stripped, is accepted by
`json.loads`; in every other zero-tool-call case the iteration appends the
corrective reminder as a new user turn and continues to the next loop
iteration rather than terminating. -/
theorem reviewer_json_extraction_amended (env : ReviewerEnv) (k : Nat) (tr : RunTrace)
    (fuel : Nat)
    (hn : env.toolNames.Nodup) (hce : env.cancelAtEntry k = false)
    (hp : pendingOf (env.gen k) = []) :
    (∀ jstr, extractJson env.jsonValid (lastTextOf (env.gen k)) = some jstr →
      reviewerLoop env (fuel + 1) k tr
        = ⟨Except.ok ⟨jstr, "Review completed successfully"⟩, tr.gens + 1, tr.dispatched,
            env.truncate tr.history ++ [respTurn (env.gen k)]⟩)
  ∧ (extractJson env.jsonValid (lastTextOf (env.gen k)) = none →
      reviewerLoop env (fuel + 1) k tr = reviewerLoop env fuel (k + 1)
        ⟨(env.truncate tr.history ++ [respTurn (env.gen k)])
            ++ [[ContentBlock.textPrompt reminderText]], tr.gens + 1, tr.dispatched⟩) := by
  constructor
  · intro jstr hx
    rw [reviewerLoop, step_json env k tr jstr hn hce hp hx]
  · intro hx
    rw [reviewerLoop, step_reminder env k tr hn hce hp hx]

/-- Witness for C3's amended statement: with a model answer containing no
valid fence the iteration re-prompts. -/
theorem reviewer_json_extraction_amended_witness :
    reviewerLoop cexEnv (0 + 1) 0 ⟨[], 0, []⟩ = reviewerLoop cexEnv 0 (0 + 1)
      ⟨(cexEnv.truncate [] ++ [respTurn (cexEnv.gen 0)])
          ++ [[ContentBlock.textPrompt reminderText]], 0 + 1, []⟩ :=
  (reviewer_json_extraction_amended cexEnv 0 ⟨[], 0, []⟩ 0 (by decide) rfl (by decide)).2
    (by decide)

/-- Counterexample to C3 as stated: `sCex` contains a ```json fenced block
whose contents parse as valid JSON (its second fence), yet the code — which
only ever inspects the text after the first `"```json"` marker — fails to
extract, appends the reminder, and (with max_turns = 1) ends in budget
exhaustion instead of returning the extracted JSON string. `jsonLoadsCex`
agrees with Python `json.loads` on every string evaluated here. -/
theorem reviewer_json_fence_claim_counterexample :
    containsValidJsonFence jsonLoadsCex sCex
  ∧ extractJson jsonLoadsCex (some sCex) = none
  ∧ (run_impl cexEnv "t" "w" [] false 1).result
      = Except.ok ⟨budgetOutput, "Review incomplete - maximum turns reached"⟩ := by
  refine ⟨⟨"```json\nbad\n``` ", "\n\x7b\x7d\n", "", by decide, by decide⟩, by decide, ?_⟩
  rfl

/-- C4: cancel() only sets the interrupted flag; the flag is consulted at
the two checkpoints of each iteration — at loop entry (a set flag ends the
run interrupted with no LLM call) and immediately before tool dispatch (a
set flag records a "Tool execution interrupted" ToolResult in the history
and ends the run interrupted without dispatching); and with no signal at
either checkpoint the loop can never produce an interrupted outcome, so a
dispatched tool always runs to completion at this layer. -/
theorem reviewer_cooperative_cancellation (env : ReviewerEnv) (k : Nat) (tr : RunTrace)
    (fuel : Nat) (tc : ToolCallParameters)
    (hn : env.toolNames.Nodup)
    (hp : pendingOf (env.gen k) = [tc])
    (hc : ∀ j, env.cancelAtEntry j = false ∧ env.cancelAtDispatch j = false) :
    (∀ st : AgentState, (cancel st).interrupted = true ∧ (cancel st).history = st.history)
  ∧ reviewerLoop { env with cancelAtEntry := fun _ => true } (fuel + 1) k tr
      = ⟨Except.ok ⟨"Reviewer interrupted", "Reviewer interrupted by user"⟩,
          tr.gens, tr.dispatched, tr.history⟩
  ∧ reviewerLoop { env with cancelAtDispatch := fun _ => true } (fuel + 1) k tr
      = ⟨Except.ok ⟨"Reviewer interrupted", "Reviewer interrupted during tool execution"⟩,
          tr.gens + 1, tr.dispatched,
          (env.truncate tr.history ++ [respTurn (env.gen k)])
            ++ [[ContentBlock.toolResult tc.tool_call_id tc.tool_name "Tool execution interrupted"]]⟩
  ∧ (∀ fuel2 k2 tr2, ¬ isInterruptedLog (reviewerLoop env fuel2 k2 tr2)) := by
  refine ⟨fun st => ⟨rfl, rfl⟩, ?_, ?_, loop_no_interrupt env hc⟩
  · rw [reviewerLoop,
      step_entry_interrupt { env with cancelAtEntry := fun _ => true } k tr hn rfl]
  · rw [reviewerLoop,
      step_dispatch_interrupt { env with cancelAtDispatch := fun _ => true } k tr tc hn
        ((hc k).1) hp rfl]

/-- Witness for C4 at a concrete one-tool-call environment. -/
theorem reviewer_cooperative_cancellation_witness :
    ((cancel ⟨[], false⟩).interrupted = true ∧ (cancel ⟨[], false⟩).history = [])
  ∧ reviewerLoop { toolCallEnv with cancelAtEntry := fun _ => true } 1 0 ⟨[], 0, []⟩
      = ⟨Except.ok ⟨"Reviewer interrupted", "Reviewer interrupted by user"⟩, 0, [], []⟩
  ∧ reviewerLoop { toolCallEnv with cancelAtDispatch := fun _ => true } 1 0 ⟨[], 0, []⟩
      = ⟨Except.ok ⟨"Reviewer interrupted", "Reviewer interrupted during tool execution"⟩,
          1, [],
          (toolCallEnv.truncate [] ++ [respTurn (toolCallEnv.gen 0)])
            ++ [[ContentBlock.toolResult "id1" "bash" "Tool execution interrupted"]]⟩
  ∧ ¬ isInterruptedLog (reviewerLoop toolCallEnv 1 0 ⟨[], 0, []⟩) := by
  have h := reviewer_cooperative_cancellation toolCallEnv 0 ⟨[], 0, []⟩ 0
    ⟨"id1", "bash", "ls"⟩ (by decide) (by decide) (fun _ => ⟨rfl, rfl⟩)
  exact ⟨h.1 ⟨[], false⟩, h.2.1, h.2.2.1, h.2.2.2 1 0 ⟨[], 0, []⟩⟩

/-- C5: the tool-name validation raises an error if and only if two
registered tools share the same name — the sorted adjacent-duplicate check
finds an adjacent equal pair exactly when the list contains a duplicate —
and it returns the tool parameter list unchanged when all names are
distinct. -/
theorem reviewer_duplicate_tool_name_validation (names : List String) :
    ((hasAdjacentDup (sortedToolNames names)).isSome ↔ ¬ names.Nodup)
  ∧ (validateToolNames names = Except.ok names ↔ names.Nodup)
  ∧ ((∃ m, validateToolNames names = Except.error m) ↔ ¬ names.Nodup) := by
  refine ⟨?_, validate_ok_iff names, validate_error_iff names⟩
  have hsorted : (sortedToolNames names).Sorted (fun a b => a ≤ b) :=
    List.sorted_insertionSort _ names
  have hperm : (sortedToolNames names).Perm names := List.perm_insertionSort _ names
  have hiff := hasAdjacentDup_none_iff (sortedToolNames names) hsorted
  rw [hperm.nodup_iff] at hiff
  constructor
  · intro hsome hnd
    rw [hiff.mpr hnd] at hsome
    exact absurd hsome (by simp)
  · intro hnotnd
    cases heq : hasAdjacentDup (sortedToolNames names) with
    | none => exact absurd (hiff.mp heq) hnotnd
    | some n => simp [heq]

/-- Witness for C5 at a concrete duplicated name list. -/
theorem reviewer_duplicate_tool_name_validation_witness :
    ((hasAdjacentDup (sortedToolNames ["b", "a", "b"])).isSome ↔ ¬ ["b", "a", "b"].Nodup)
  ∧ (validateToolNames ["b", "a", "b"] = Except.ok ["b", "a", "b"] ↔ ["b", "a", "b"].Nodup)
  ∧ ((∃ m, validateToolNames ["b", "a", "b"] = Except.error m) ↔ ¬ ["b", "a", "b"].Nodup) :=
  reviewer_duplicate_tool_name_validation ["b", "a", "b"]

/-- C6: run_agent with resume=False clears the history and resets the
interrupted flag before running, while run_agent with resume=True keeps
the existing history and interruption state and asserts that the history
currently ends on a user turn; a resumed call whose history ends on an
assistant turn raises the assertion as a precondition violation. -/
theorem reviewer_run_agent_resume_semantics (env : ReviewerEnv)
    (task workspace_dir : String) (m : Nat) (st : AgentState) :
    (run_agent env task workspace_dir st false m
        = Except.ok (run_impl env task workspace_dir [] false m))
  ∧ (is_next_turn_user st.history = true →
      run_agent env task workspace_dir st true m
        = Except.ok (run_impl env task workspace_dir st.history st.interrupted m))
  ∧ (is_next_turn_user st.history = false →
      run_agent env task workspace_dir st true m = Except.error assertionFailureMessage) := by
  refine ⟨rfl, ?_, ?_⟩
  · intro h
    simp [run_agent, h]
  · intro h
    simp [run_agent, h]

/-- Witness for C6: fresh run, legal resume on a user-final history, and
an assertion failure on an assistant-final history. -/
theorem reviewer_run_agent_resume_semantics_witness :
    (run_agent sampleEnv "t" "w" ⟨[[ContentBlock.textPrompt "x"]], true⟩ false 0
        = Except.ok (run_impl sampleEnv "t" "w" [] false 0))
  ∧ (run_agent sampleEnv "t" "w" ⟨[[ContentBlock.textPrompt "x"]], true⟩ true 0
        = Except.ok (run_impl sampleEnv "t" "w" [[ContentBlock.textPrompt "x"]] true 0))
  ∧ (run_agent sampleEnv "t" "w"
        ⟨[[ContentBlock.textPrompt "x"], [ContentBlock.textResult "y"]], false⟩ true 0
        = Except.error assertionFailureMessage) :=
  ⟨(reviewer_run_agent_resume_semantics sampleEnv "t" "w" 0
      ⟨[[ContentBlock.textPrompt "x"]], true⟩).1,
    (reviewer_run_agent_resume_semantics sampleEnv "t" "w" 0
      ⟨[[ContentBlock.textPrompt "x"]], true⟩).2.1 (by decide),
    (reviewer_run_agent_resume_semantics sampleEnv "t" "w" 0
      ⟨[[ContentBlock.textPrompt "x"], [ContentBlock.textResult "y"]], false⟩).2.2 (by decide)⟩

/-- C9: a run never terminates Interrupted because of a cancel() issued
before run_impl begins: run_impl overwrites the interrupted flag with
False after appending the instruction turn, so its outcome is independent
of the inherited flag; when no cancel() arrives after that reset the
outcome is never Interrupted even if the flag was set beforehand; and a
resumed run_agent — which does not reset the flag itself — behaves exactly
as if the inherited flag were clear. -/
theorem reviewer_interrupt_reset_discards_prior_cancel (env : ReviewerEnv)
    (task workspace_dir : String) (h0 : List Turn) (m : Nat) :
    (∀ i0 : Bool, run_impl env task workspace_dir h0 i0 m
        = run_impl env task workspace_dir h0 false m)
  ∧ ((∀ k, env.cancelAtEntry k = false ∧ env.cancelAtDispatch k = false) →
      ¬ isInterruptedLog (run_impl env task workspace_dir h0 true m))
  ∧ (∀ st : AgentState, is_next_turn_user st.history = true →
      run_agent env task workspace_dir st true m
        = Except.ok (run_impl env task workspace_dir st.history false m)) := by
  refine ⟨fun _ => rfl, ?_, ?_⟩
  · intro hc
    exact loop_no_interrupt env hc m 0
      ⟨h0 ++ [[ContentBlock.textPrompt (reviewInstruction task workspace_dir)]], 0, []⟩
  · intro st h
    have hres : run_agent env task workspace_dir st true m
        = Except.ok (run_impl env task workspace_dir st.history st.interrupted m) := by
      simp [run_agent, h]
    rw [hres]
    rfl

/-- Witness for C9: a pre-set interrupted flag is discarded by the reset. -/
theorem reviewer_interrupt_reset_discards_prior_cancel_witness :
    (run_impl sampleEnv "t" "w" [] true 1 = run_impl sampleEnv "t" "w" [] false 1)
  ∧ ¬ isInterruptedLog (run_impl sampleEnv "t" "w" [] true 1)
  ∧ (run_agent sampleEnv "t" "w" ⟨[[ContentBlock.textPrompt "x"]], true⟩ true 1
      = Except.ok (run_impl sampleEnv "t" "w" [[ContentBlock.textPrompt "x"]] false 1)) :=
  ⟨(reviewer_interrupt_reset_discards_prior_cancel sampleEnv "t" "w" [] 1).1 true,
    (reviewer_interrupt_reset_discards_prior_cancel sampleEnv "t" "w" [] 1).2.1
      (fun _ => ⟨rfl, rfl⟩),
    (reviewer_interrupt_reset_discards_prior_cancel sampleEnv "t" "w" [] 1).2.2
      ⟨[[ContentBlock.textPrompt "x"]], true⟩ (by decide)⟩

/-- A successful provider call breaks out of the retry loop at once. -/
theorem geminiRetryGo_ok (attempt : Nat → Except GenErr String) (M fuel k s : Nat) (r : String)
    (he : attempt k = Except.ok r) :
    geminiRetryGo attempt M (fuel + 1) k s = RetryOutcome.ok r (k + 1) s := by
  simp [geminiRetryGo, he]

/-- A non-transient error propagates at once, with no further attempt. -/
theorem geminiRetryGo_nontransient (attempt : Nat → Except GenErr String)
    (M fuel k s : Nat) (e : GenErr)
    (he : attempt k = Except.error e) (htr : isTransient e = false) :
    geminiRetryGo attempt M (fuel + 1) k s = RetryOutcome.raised e (k + 1) s := by
  simp [geminiRetryGo, he, htr]

/-- A transient error on the last allowed attempt re-raises the provider
error. -/
theorem geminiRetryGo_last (attempt : Nat → Except GenErr String)
    (M fuel k s : Nat) (e : GenErr)
    (he : attempt k = Except.error e) (htr : isTransient e = true) (hk : k = M - 1) :
    geminiRetryGo attempt M (fuel + 1) k s = RetryOutcome.raised e (k + 1) s := by
  subst hk
  simp [geminiRetryGo, he, htr]

/-- A transient error before the last allowed attempt sleeps once and
retries with the next attempt index. -/
theorem geminiRetryGo_retry (attempt : Nat → Except GenErr String)
    (M fuel k s : Nat) (e : GenErr)
    (he : attempt k = Except.error e) (htr : isTransient e = true) (hk : k ≠ M - 1) :
    geminiRetryGo attempt M (fuel + 1) k s = geminiRetryGo attempt M fuel (k + 1) (s + 1) := by
  simp [geminiRetryGo, he, htr, hk]

/-- Skipping a prefix of transient-failure attempts: each one sleeps once
and moves to the next attempt. -/
theorem gemini_skip (attempt : Nat → Except GenErr String) (M : Nat) :
    ∀ d k s, (∀ i, k ≤ i → i < k + d → transientAt attempt i) → k + d < M →
      geminiRetryGo attempt M (M - k) k s
        = geminiRetryGo attempt M (M - (k + d)) (k + d) (s + d) := by
  intro d
  induction d with
  | zero => intro k s _ _; rfl
  | succ n ih =>
    intro k s htr hlt
    obtain ⟨e, he, hetr⟩ := htr k (le_refl k) (by omega)
    have hfuel : M - k = (M - (k + 1)) + 1 := by omega
    rw [hfuel, geminiRetryGo_retry attempt M (M - (k + 1)) k s e he hetr (by omega)]
    have := ih (k + 1) (s + 1)
      (by intro i h1 h2; exact htr i (by omega) (by omega)) (by omega)
    rw [this, show k + 1 + n = k + (n + 1) from by omega,
      show s + 1 + n = s + (n + 1) from by omega]

/-- The retry loop never makes more than `maxRetries` provider attempts. -/
theorem gemini_attempts_bound (attempt : Nat → Except GenErr String) (M : Nat) :
    ∀ fuel k s, fuel + k = M → attemptsOf (geminiRetryGo attempt M fuel k s) ≤ M := by
  intro fuel
  induction fuel with
  | zero =>
    intro k s h
    simp [geminiRetryGo, attemptsOf]
    omega
  | succ n ih =>
    intro k s h
    rw [geminiRetryGo]
    split
    · simp [attemptsOf]; omega
    · split
      · split
        · simp [attemptsOf]; omega
        · exact ih (k + 1) (s + 1) (by omega)
      · simp [attemptsOf]; omega

/-- C7: GeminiXMLClient.generate retries the provider call only on an
APIError with code 503 or 429: a success after a prefix of transient
failures is returned (one sleep between consecutive attempts), a
non-transient error is raised immediately with no retry, a transient
failure on the final allowed attempt re-raises the provider error after
exactly maxRetries attempts appropriately interleaved with sleeps, and the
loop never makes more than maxRetries attempts. -/
theorem gemini_retry_policy (attempt : Nat → Except GenErr String) (maxRetries : Nat)
    (hpos : 1 ≤ maxRetries) :
    (∀ j r, j < maxRetries → attempt j = Except.ok r →
      (∀ i, i < j → transientAt attempt i) →
      geminiGenerate attempt maxRetries = RetryOutcome.ok r (j + 1) j)
  ∧ (∀ j e, j < maxRetries → attempt j = Except.error e → isTransient e = false →
      (∀ i, i < j → transientAt attempt i) →
      geminiGenerate attempt maxRetries = RetryOutcome.raised e (j + 1) j)
  ∧ (∀ eLast, attempt (maxRetries - 1) = Except.error eLast → isTransient eLast = true →
      (∀ i, i < maxRetries - 1 → transientAt attempt i) →
      geminiGenerate attempt maxRetries
        = RetryOutcome.raised eLast maxRetries (maxRetries - 1))
  ∧ attemptsOf (geminiGenerate attempt maxRetries) ≤ maxRetries := by
  refine ⟨?_, ?_, ?_, gemini_attempts_bound attempt maxRetries maxRetries 0 0 rfl⟩
  · intro j r hj hok hpre
    have hskip := gemini_skip attempt maxRetries j 0 0
      (by intro i h1 h2; exact hpre i (by omega)) (by omega)
    rw [Nat.zero_add] at hskip
    obtain ⟨m, hm⟩ : ∃ m, maxRetries - j = m + 1 := ⟨maxRetries - j - 1, by omega⟩
    show geminiRetryGo attempt maxRetries (maxRetries - 0) 0 0 = _
    rw [hskip, hm, geminiRetryGo_ok attempt maxRetries m j j r hok]
  · intro j e hj herr htr hpre
    have hskip := gemini_skip attempt maxRetries j 0 0
      (by intro i h1 h2; exact hpre i (by omega)) (by omega)
    rw [Nat.zero_add] at hskip
    obtain ⟨m, hm⟩ : ∃ m, maxRetries - j = m + 1 := ⟨maxRetries - j - 1, by omega⟩
    show geminiRetryGo attempt maxRetries (maxRetries - 0) 0 0 = _
    rw [hskip, hm, geminiRetryGo_nontransient attempt maxRetries m j j e herr htr]
  · intro eLast herr htr hpre
    have hskip := gemini_skip attempt maxRetries (maxRetries - 1) 0 0
      (by intro i h1 h2; exact hpre i (by omega)) (by omega)
    rw [Nat.zero_add] at hskip
    show geminiRetryGo attempt maxRetries (maxRetries - 0) 0 0 = _
    rw [hskip, show maxRetries - (maxRetries - 1) = 0 + 1 from by omega,
      geminiRetryGo_last attempt maxRetries 0 (maxRetries - 1) (maxRetries - 1) eLast herr htr rfl,
      show maxRetries - 1 + 1 = maxRetries from by omega]

/-- Witness for C7: three attempts all throttled with 503 re-raise the
provider error after three attempts and two sleeps. -/
theorem gemini_retry_policy_witness :
    geminiGenerate (fun _ => Except.error (GenErr.api 503 "overloaded")) 3
      = RetryOutcome.raised (GenErr.api 503 "overloaded") 3 2
  ∧ attemptsOf (geminiGenerate (fun _ => Except.error (GenErr.api 503 "overloaded")) 3) ≤ 3 := by
  have h := gemini_retry_policy (fun _ => Except.error (GenErr.api 503 "overloaded")) 3 (by omega)
  exact ⟨h.2.2.1 (GenErr.api 503 "overloaded") rfl rfl
    (fun i _ => ⟨GenErr.api 503 "overloaded", rfl, rfl⟩), h.2.2.2⟩

/-- C10: the constructor accepts max_retries = 0 without validation, and in
that case the retry loop body never executes, no provider request is made
(zero attempts are recorded), and generate falls through to the read of
the unbound `response` local instead of producing any result. -/
theorem gemini_zero_retries_unbound_local (attempt : Nat → Except GenErr String)
    (model : String) :
    geminiGenerate attempt 0 = RetryOutcome.unboundLocalError 0
  ∧ attemptsOf (geminiGenerate attempt 0) = 0
  ∧ geminiInit model 0 = ⟨model, 0⟩
  ∧ (geminiInit model 0).max_retries = 0 :=
  ⟨rfl, rfl, rfl, rfl⟩

/-- Every handled event is persisted exactly when a session is present,
whatever the websocket does. -/
theorem processEvent_db (sp : Bool) (sf : Nat → Bool) (idx : Nat)
    (st : ConsumerState) (e : RealtimeEvent) :
    (processEvent sp sf idx st e).db = st.db ++ (if sp then [e] else []) := by
  cases sp <;> by_cases hw : st.wsAttached <;>
    by_cases ht : (e.type != EventType.userMessage) = true <;> by_cases hf : sf idx <;>
    simp [processEvent, hw, ht, hf]

/-- The database log after draining a queue prefix: all events appended in
FIFO order when a session is present, none otherwise. -/
theorem processMessages_db (sp : Bool) (sf : Nat → Bool) :
    ∀ evs idx st, (processMessages sp sf evs idx st).db
      = st.db ++ (if sp then evs else []) := by
  intro evs
  induction evs with
  | nil => intro idx st; cases sp <;> simp [processMessages]
  | cons e rest ih =>
    intro idx st
    rw [processMessages, ih, processEvent_db]
    cases sp <;> simp

/-- A handled event either leaves the sent log unchanged or appends itself,
and only a non-USER_MESSAGE event is ever appended. -/
theorem processEvent_sent (sp : Bool) (sf : Nat → Bool) (idx : Nat)
    (st : ConsumerState) (e : RealtimeEvent) :
    (processEvent sp sf idx st e).sent = st.sent ∨
      ((processEvent sp sf idx st e).sent = st.sent ++ [e]
        ∧ e.type ≠ EventType.userMessage) := by
  by_cases ht : e.type = EventType.userMessage
  · left
    cases sp <;> simp [processEvent, ht]
  · have htb : (e.type != EventType.userMessage) = true := by simp [bne_iff_ne, ht]
    cases sp <;> by_cases hw : st.wsAttached <;> by_cases hf : sf idx <;>
      simp [processEvent, htb, hw, hf, ht]

/-- Everything the consumer ever forwards is a non-USER_MESSAGE event. -/
theorem processMessages_sent_nonuser (sp : Bool) (sf : Nat → Bool) :
    ∀ evs idx st, (∀ x, x ∈ st.sent → x.type ≠ EventType.userMessage) →
      ∀ x, x ∈ (processMessages sp sf evs idx st).sent → x.type ≠ EventType.userMessage := by
  intro evs
  induction evs with
  | nil => intro idx st hst; exact hst
  | cons e rest ih =>
    intro idx st hst
    refine ih (idx + 1) (processEvent sp sf idx st e) ?_
    rcases processEvent_sent sp sf idx st e with h | ⟨h, hne⟩
    · rw [h]; exact hst
    · rw [h]
      intro x hx
      rcases List.mem_append.mp hx with hx1 | hx2
      · exact hst x hx1
      · rw [List.mem_singleton.mp hx2]; exact hne

/-- A detached consumer persists but no longer forwards, and stays
detached, for every later event. -/
theorem processEvent_detached (sp : Bool) (sf : Nat → Bool) (idx : Nat)
    (st : ConsumerState) (e : RealtimeEvent) (h : st.wsAttached = false) :
    (processEvent sp sf idx st e).sent = st.sent
      ∧ (processEvent sp sf idx st e).wsAttached = false := by
  cases sp <;> simp [processEvent, h]

/-- Draining any queue suffix from a detached state forwards nothing,
stays detached, and still persists every event when a session is present. -/
theorem processMessages_detached (sp : Bool) (sf : Nat → Bool) :
    ∀ evs idx st, st.wsAttached = false →
      (processMessages sp sf evs idx st).sent = st.sent
        ∧ (processMessages sp sf evs idx st).wsAttached = false
        ∧ (processMessages sp sf evs idx st).db = st.db ++ (if sp then evs else []) := by
  intro evs
  induction evs with
  | nil => intro idx st h; refine ⟨rfl, h, ?_⟩; cases sp <;> simp [processMessages]
  | cons e rest ih =>
    intro idx st h
    obtain ⟨hs, hw⟩ := processEvent_detached sp sf idx st e h
    rw [processMessages]
    obtain ⟨ih1, ih2, ih3⟩ := ih (idx + 1) (processEvent sp sf idx st e) hw
    refine ⟨by rw [ih1, hs], ih2, ?_⟩
    rw [ih3, processEvent_db]
    cases sp <;> simp

/-- A raising send is caught: the event stays persisted, nothing is
forwarded, and the websocket is detached. -/
theorem processEvent_send_failure (sp : Bool) (sf : Nat → Bool) (idx : Nat)
    (st : ConsumerState) (e : RealtimeEvent) (hw : st.wsAttached = true)
    (ht : e.type ≠ EventType.userMessage) (hf : sf idx = true) :
    processEvent sp sf idx st e = ⟨st.db ++ (if sp then [e] else []), st.sent, false⟩ := by
  have htb : (e.type != EventType.userMessage) = true := by simp [bne_iff_ne, ht]
  cases sp <;> simp [processEvent, htb, hw, hf]

/-- While attached and with no send failures, exactly the non-USER_MESSAGE
events are forwarded, in order. -/
theorem processMessages_forward_all (sp : Bool) (sf : Nat → Bool)
    (hsf : ∀ i, sf i = false) :
    ∀ evs idx st, st.wsAttached = true →
      (processMessages sp sf evs idx st).sent
        = st.sent ++ evs.filter (fun e => e.type != EventType.userMessage) := by
  intro evs
  induction evs with
  | nil => intro idx st _; simp [processMessages]
  | cons e rest ih =>
    intro idx st hw
    rw [processMessages]
    by_cases ht : e.type = EventType.userMessage
    · have hskip : processEvent sp sf idx st e
          = ⟨st.db ++ (if sp then [e] else []), st.sent, st.wsAttached⟩ := by
        cases sp <;> simp [processEvent, ht]
      rw [hskip,
        ih (idx + 1) ⟨st.db ++ (if sp then [e] else []), st.sent, st.wsAttached⟩ hw]
      simp [List.filter_cons, ht]
    · have htb : (e.type != EventType.userMessage) = true := by simp [bne_iff_ne, ht]
      have hsend : processEvent sp sf idx st e
          = ⟨st.db ++ (if sp then [e] else []), st.sent ++ [e], st.wsAttached⟩ := by
        cases sp <;> simp [processEvent, htb, hw, hsf idx]
      rw [hsend,
        ih (idx + 1) ⟨st.db ++ (if sp then [e] else []), st.sent ++ [e], st.wsAttached⟩ hw]
      simp [List.filter_cons, htb]

/-- C8: for every event the consumer takes from the queue it persists the
event exactly when a session is present; it forwards the event only when
the type is not USER_MESSAGE and a websocket is attached and the send does
not raise; a raising send is caught, detaches the websocket, and all later
events are still persisted but no longer forwarded; processing always
continues past a transport failure. -/
theorem consumer_event_processing (sp : Bool) (sf : Nat → Bool) (evs : List RealtimeEvent) :
    ((processMessages sp sf evs 0 ⟨[], [], true⟩).db = if sp then evs else [])
  ∧ (∀ x, x ∈ (processMessages sp sf evs 0 ⟨[], [], true⟩).sent →
      x.type ≠ EventType.userMessage)
  ∧ (∀ idx st e, st.wsAttached = true → e.type ≠ EventType.userMessage → sf idx = true →
      processEvent sp sf idx st e = ⟨st.db ++ (if sp then [e] else []), st.sent, false⟩)
  ∧ (∀ evs2 idx st, st.wsAttached = false →
      (processMessages sp sf evs2 idx st).sent = st.sent
        ∧ (processMessages sp sf evs2 idx st).wsAttached = false
        ∧ (processMessages sp sf evs2 idx st).db = st.db ++ (if sp then evs2 else []))
  ∧ ((∀ i, sf i = false) →
      (processMessages sp sf evs 0 ⟨[], [], true⟩).sent
        = evs.filter (fun e => e.type != EventType.userMessage)) := by
  refine ⟨?_, ?_, ?_, ?_, ?_⟩
  · rw [processMessages_db]
    simp
  · exact processMessages_sent_nonuser sp sf evs 0 ⟨[], [], true⟩ (by simp)
  · intro idx st e hw ht hf
    exact processEvent_send_failure sp sf idx st e hw ht hf
  · intro evs2 idx st h
    exact processMessages_detached sp sf evs2 idx st h
  · intro hsf
    rw [processMessages_forward_all sp sf hsf evs 0 ⟨[], [], true⟩ rfl]
    simp

/-- Witness for C8: a user event and a tool event, with a session and a
healthy websocket — both persisted, only the tool event forwarded; and a
failing send on an attached consumer detaches it. -/
theorem consumer_event_processing_witness :
    ((processMessages true (fun _ => false)
        [⟨EventType.userMessage, "u"⟩, ⟨EventType.toolCallEvent, "c"⟩] 0 ⟨[], [], true⟩).db
      = if true then [⟨EventType.userMessage, "u"⟩, ⟨EventType.toolCallEvent, "c"⟩] else [])
  ∧ (processEvent true (fun _ => true) 0 ⟨[], [], true⟩ ⟨EventType.toolCallEvent, "c"⟩
      = ⟨[] ++ (if true then [⟨EventType.toolCallEvent, "c"⟩] else []), [], false⟩)
  ∧ ((processMessages true (fun _ => false)
        [⟨EventType.userMessage, "u"⟩, ⟨EventType.toolCallEvent, "c"⟩] 0 ⟨[], [], true⟩).sent
      = List.filter (fun e => e.type != EventType.userMessage)
          [⟨EventType.userMessage, "u"⟩, ⟨EventType.toolCallEvent, "c"⟩]) := by
  have h := consumer_event_processing true (fun _ => false)
    [⟨EventType.userMessage, "u"⟩, ⟨EventType.toolCallEvent, "c"⟩]
  have h2 := consumer_event_processing true (fun _ => true)
    [⟨EventType.userMessage, "u"⟩, ⟨EventType.toolCallEvent, "c"⟩]
  exact ⟨h.1, h2.2.2.1 0 ⟨[], [], true⟩ ⟨EventType.toolCallEvent, "c"⟩ rfl (by decide) rfl,
    h.2.2.2.2 (fun _ => rfl)⟩
